import Mathlib

set_option maxRecDepth 20000

/-!
Shallow embedding of the ccflare OAuth and proxy-failover core.

Sources embedded:
- src/packages/providers/src/providers/anthropic/oauth.ts
  (AnthropicOAuthProvider.exchangeCode), together with the proxy operations
  bundled in the same source file (proxyUnauthenticated, proxyWithAccount);
- src/unnamed/part_000 (OAuthRepository: createSession, getSession).

Strings are modelled as lists of characters (abbrev Str); JavaScript string
truthiness (undefined, null and the empty string are falsy) is modelled
explicitly. Network effects are modelled by passing the outcome of each
upstream call as an explicit argument, with Except.error standing for a
thrown JavaScript exception. Logging statements of the source have no
behavioural effect and are omitted.
-/

abbrev Str := List Char

/-- JavaScript a || b for an optional string a: a falls through to b when it
is absent, null, or the empty string. -/
def jsOrStr (a : Option Str) (b : Str) : Str :=
  match a with
  | none => b
  | some s => if s.isEmpty then b else s

/-- JavaScript truthiness of an optional string value. -/
def truthyOpt : Option Str → Bool
  | none => false
  | some s => !s.isEmpty

/-- JavaScript s || null for an optional string. -/
def jsOrNull (a : Option Str) : Option Str :=
  match a with
  | none => none
  | some s => if s.isEmpty then none else some s

inductive ModeM where
  | console : ModeM
  | max : ModeM
deriving DecidableEq

structure OAuthProviderConfigM where
  authorizeUrl : Str
  tokenUrl : Str
  clientId : Str
  scopes : List Str
  redirectUri : Str
  mode : ModeM

/-- JavaScript code.split on the hash character, as used by exchangeCode:
the list of hash-free segments of the input, empty segments preserved. -/
def jsSplitHash : Str → List Str
  | [] => [[]]
  | c :: cs =>
    if c = '#' then [] :: jsSplitHash cs
    else
      match jsSplitHash cs with
      | [] => [[c]]
      | s :: rest => (c :: s) :: rest

/-- Embeds the code parsing of exchangeCode (oauth.ts lines 50-58): when the
code contains a hash, authCode is splits[0] and extractedState is splits[1]
or the empty string; otherwise the code is used as is with an empty
extracted state. -/
def splitCodeState (code : Str) : Str × Str :=
  if ('#' : Char) ∈ code then
    ((jsSplitHash code).getD 0 [], (jsSplitHash code).getD 1 [])
  else (code, [])

structure ExchangeRequestM where
  url : Str
  method : Str
  headers : List (Str × Str)
  body : List (Str × Str)

/-- Embeds the token request construction of exchangeCode (oauth.ts lines
60-92): the final state is stateParam || extractedState, the body fields are
in object-literal order, and the headers are those passed to fetch. -/
def buildExchangeRequest (code verifier : Str) (config : OAuthProviderConfigM)
    (stateParam : Option Str) : ExchangeRequestM :=
  let authCode := (splitCodeState code).1
  let extractedState := (splitCodeState code).2
  let finalState := jsOrStr stateParam extractedState
  { url := config.tokenUrl
    method := "POST".data
    headers := [("Content-Type".data, "application/json".data),
                ("Accept".data, "application/json, text/plain, */*".data),
                ("User-Agent".data, "axios/1.8.4".data)]
    body := [("grant_type".data, "authorization_code".data),
             ("code".data, authCode),
             ("redirect_uri".data, config.redirectUri),
             ("client_id".data, config.clientId),
             ("code_verifier".data, verifier),
             ("state".data, finalState)] }

structure ErrDetailsM where
  error : Option Str
  error_description : Option Str
deriving DecidableEq

structure TokenJsonM where
  refresh_token : Str
  access_token : Str
  expires_in : Int
deriving DecidableEq

/-- Model of the fetch Response as observed by exchangeCode: the ok flag,
status, statusText, the error body as the result of JSON.parse on the raw
response text (none when parsing fails or yields null), and the token
payload read on the success path. -/
structure ResponseExM where
  ok : Bool
  status : Int
  statusText : Str
  errJson : Option ErrDetailsM
  tokenJson : TokenJsonM
deriving DecidableEq

structure OAuthErrorM where
  message : Str
  provider : Str
  code : Option Str
deriving DecidableEq

structure TokenResultM where
  refreshToken : Str
  accessToken : Str
  expiresAt : Int
deriving DecidableEq

/-- Embeds the response handling of exchangeCode (oauth.ts lines 94-132):
a non-ok response raises OAuthError with message
errorDetails.error_description || errorDetails.error || response.statusText
|| a fixed default, and code errorDetails.error; an ok response yields the
TokenResult with expiresAt = now + expires_in * 1000. -/
def processExchangeResponse (resp : ResponseExM) (now : Int) :
    Except OAuthErrorM TokenResultM :=
  if resp.ok then
    Except.ok { refreshToken := resp.tokenJson.refresh_token
                accessToken := resp.tokenJson.access_token
                expiresAt := now + resp.tokenJson.expires_in * 1000 }
  else
    let errorMessage :=
      jsOrStr (resp.errJson.bind fun d => d.error_description)
        (jsOrStr (resp.errJson.bind fun d => d.error)
          (jsOrStr (some resp.statusText) ("OAuth token exchange failed".data)))
    Except.error { message := errorMessage
                   provider := "anthropic".data
                   code := resp.errJson.bind fun d => d.error }

structure SessionRow where
  id : Str
  account_name : Str
  verifier : Str
  state : Option Str
  mode : ModeM
  tier : Int
  created_at : Int
  expires_at : Int
deriving DecidableEq

structure OAuthSessionM where
  accountName : Str
  verifier : Str
  state : Option Str
  mode : ModeM
  tier : Int
deriving DecidableEq

/-- Embeds OAuthRepository.createSession (src/unnamed/part_000 lines 12-40):
inserts a row with expires_at = now + ttlMinutes * 60 * 1000 and the state
column stored as state || null. -/
def createSession (db : List SessionRow) (sessionId accountName verifier : Str)
    (mode : ModeM) (tier : Int) (ttlMinutes : Int) (state : Option Str)
    (now : Int) : List SessionRow :=
  db ++ [{ id := sessionId
           account_name := accountName
           verifier := verifier
           state := jsOrNull state
           mode := mode
           tier := tier
           created_at := now
           expires_at := now + ttlMinutes * 60 * 1000 }]

/-- Row filter of the getSession query (src/unnamed/part_000 lines 52-56):
the id matches and expires_at is strictly greater than the read time. -/
def sessionLive (sessionId : Str) (now : Int) (r : SessionRow) : Bool :=
  decide (r.id = sessionId) && decide (now < r.expires_at)

/-- Embeds OAuthRepository.getSession (src/unnamed/part_000 lines 42-68):
the first row matching the query, projected to the session record; null
when no unexpired row matches. -/
def getSession (db : List SessionRow) (sessionId : Str) (now : Int) :
    Option OAuthSessionM :=
  (db.find? (sessionLive sessionId now)).map fun r =>
    { accountName := r.account_name
      verifier := r.verifier
      state := r.state
      mode := r.mode
      tier := r.tier }

structure RequestM where
  method : Str
  headers : List (Str × Str)
  pathname : Str
  search : Str
  hasBody : Bool
deriving DecidableEq

structure RequestMetaM where
  id : Str
  timestamp : Int
  agentUsed : Option Str
deriving DecidableEq

structure AccountM where
  name : Str
  api_key : Option Str
  refresh_token : Option Str
  rate_limited_until : Option Int
deriving DecidableEq

structure RespM where
  status : Int
  headers : List (Str × Str)
  body : Str
deriving DecidableEq

/-- Forwarding record handed to forwardToClient (oauth.ts lines 196-211 and
369-384); the forwarding collaborator delivers record.response to the
original caller. -/
structure ForwardRecordM where
  requestId : Str
  method : Str
  path : Str
  account : Option Str
  requestHeaders : List (Str × Str)
  requestBody : Option Str
  response : RespM
  timestamp : Int
  retryAttempt : Nat
  failoverAttempts : Nat
  agentUsed : Option Str
deriving DecidableEq

structure ProviderErrorM where
  message : Str
  provider : Str
  status : Int
  originalError : Str
deriving DecidableEq

/-- Lookup in a fetch Headers object; header names are stored lowercased. -/
def headersGet (hs : List (Str × Str)) (k : Str) : Option Str :=
  (hs.find? fun p => decide (p.1 = k)).map fun p => p.2

/-- JavaScript String.prototype.includes. -/
def isSubstrOf (needle hay : Str) : Bool :=
  hay.tails.any fun t => needle.isPrefixOf t

/-- Embeds the Max-account test of proxyWithAccount (oauth.ts line 251):
not account.api_key and account.refresh_token, under JavaScript truthiness. -/
def isMaxAccount (a : AccountM) : Bool :=
  !truthyOpt a.api_key && truthyOpt a.refresh_token

/-- Embeds the Claude-Code-request test of proxyWithAccount (oauth.ts lines
252-254): the x-app header equals cli, or the user-agent header contains
claude-cli. -/
def isClaudeCodeRequest (req : RequestM) : Bool :=
  (headersGet req.headers ("x-app".data) == some ("cli".data)) ||
  (match headersGet req.headers ("user-agent".data) with
   | some ua => isSubstrOf ("claude-cli".data) ua
   | none => false)

/-- Modelled from the spec: processProxyResponse (response-processor.ts, not
under src/) asks the provider collaborator whether the response signals
rate-limiting and, on detection, marks rateLimitedUntil on the account; the
mark value is provider-determined and passed here as a function of the
response. Returns the classification together with the account. -/
def processProxyResponse (isRL : RespM → Bool) (rlUntil : RespM → Int)
    (resp : RespM) (account : AccountM) : Bool × AccountM :=
  if isRL resp then
    (true, { account with rate_limited_until := some (rlUntil resp) })
  else (false, account)

/-- Modelled from the spec: the ERROR_MESSAGES.UNAUTHENTICATED_FAILED constant
(proxy-types.ts, not under src/); its exact text is immaterial to the
claims, only its identity is used. -/
def unauthenticatedFailedMsg : Str := "Unauthenticated request failed".data

/-- JavaScript account.api_key || undefined (oauth.ts line 303). -/
def jsApiKey (a : AccountM) : Option Str :=
  if truthyOpt a.api_key then a.api_key else none

/-- Embeds proxyUnauthenticated (oauth.ts lines 157-223). The provider
collaborator prepareHeaders and the upstream send (makeProxyRequest and the
network, not under src/) are parameters, with the send outcome an Except
whose error stands for a thrown exception. Besides the result, the list of
header sets used for upstream attempts is returned, recording how many
attempts were made and with which credentials. forwardToClient (not under
src/) is modelled as delivery of the forwarding record. -/
def proxyUnauthenticated (req : RequestM) (meta : RequestMetaM)
    (requestBody : Option Str) (providerName : Str)
    (prepareHeaders : List (Str × Str) → Option Str → Option Str → List (Str × Str))
    (send : List (Str × Str) → Except Str RespM) :
    Except ProviderErrorM ForwardRecordM × List (List (Str × Str)) :=
  let headers := prepareHeaders req.headers none none
  match send headers with
  | Except.ok response =>
    (Except.ok { requestId := meta.id
                 method := req.method
                 path := req.pathname
                 account := none
                 requestHeaders := req.headers
                 requestBody := requestBody
                 response := response
                 timestamp := meta.timestamp
                 retryAttempt := 0
                 failoverAttempts := 0
                 agentUsed := meta.agentUsed }, [headers])
  | Except.error e =>
    (Except.error { message := unauthenticatedFailedMsg
                    provider := providerName
                    status := 502
                    originalError := e }, [headers])

/-- Embeds proxyWithAccount (oauth.ts lines 237-389). getValidAccessToken and
the upstream send are passed as outcomes, with Except.error standing for a
thrown exception; the whole body runs inside a try whose catch only logs
(handleProxyError, not under src/, logs per the spec) and yields null, so
the embedding is a total function returning the optional forwarding record
and the account as left after the attempt. The block at lines 262-299 that
detects a Claude Code request on a Max account only logs and builds an
error payload that is never returned; the request proceeds regardless. -/
def proxyWithAccount (req : RequestM) (account : AccountM) (meta : RequestMetaM)
    (requestBody : Option Str) (failoverAttempts : Nat)
    (tokenResult : Except Str (Option Str))
    (prepareHeaders : List (Str × Str) → Option Str → Option Str → List (Str × Str))
    (send : List (Str × Str) → Except Str RespM)
    (isRL : RespM → Bool) (rlUntil : RespM → Int) :
    Option ForwardRecordM × AccountM :=
  let _isMax := isMaxAccount account
  let _isCC := isClaudeCodeRequest req
  match tokenResult with
  | Except.error _ => (none, account)
  | Except.ok accessToken =>
    let headers := prepareHeaders req.headers accessToken (jsApiKey account)
    match send headers with
    | Except.error _ => (none, account)
    | Except.ok response =>
      let classified := processProxyResponse isRL rlUntil response account
      if classified.1 then (none, classified.2)
      else
        (some { requestId := meta.id
                method := req.method
                path := req.pathname
                account := some account.name
                requestHeaders := req.headers
                requestBody := requestBody
                response := response
                timestamp := meta.timestamp
                retryAttempt := 0
                failoverAttempts := failoverAttempts
                agentUsed := meta.agentUsed }, classified.2)

/-- Phase of one concurrent caller of getValidAccessToken in the single-flight
model; the Nat carried by done is the token value the caller received. -/
inductive CallerPhase where
  | start : CallerPhase
  | refreshing : CallerPhase
  | waiting : CallerPhase
  | done : Nat → CallerPhase
deriving DecidableEq

/-- Modelled from the spec: the token-manager source (token-manager.ts) is not
under src/. Per spec sections 4.3 and 9, getValidAccessToken keeps a
per-account in-flight-refresh handle: the first caller that finds the cached
token expired installs the handle and performs the upstream refresh; callers
arriving while it is in flight attach to the handle and receive its result.
This state covers one account over one expiry cycle, with n concurrent
callers whose cached token is expired; refreshCount counts upstream refresh
requests actually issued. -/
structure SFState (n : Nat) where
  phase : Fin n → CallerPhase
  inFlight : Bool
  result : Option Nat
  refreshCount : Nat

def sfInit (n : Nat) : SFState n :=
  { phase := fun _ => CallerPhase.start
    inFlight := false
    result := none
    refreshCount := 0 }

/-- Modelled from the spec: one interleaving step of the single-flight refresh
for one account. install: a caller finds no refresh in flight and becomes
the refresher; attach: a caller finds a refresh in flight and waits on the
shared handle; complete: the refresher finishes the one upstream call
(counted) and publishes the fresh token tok; wake: a waiting caller reads
the published result. -/
inductive SFStep (tok : Nat) {n : Nat} : SFState n → SFState n → Prop where
  | install (s : SFState n) (i : Fin n)
      (hp : s.phase i = CallerPhase.start) (hf : s.inFlight = false) :
      SFStep tok s { s with phase := Function.update s.phase i CallerPhase.refreshing
                            inFlight := true }
  | attach (s : SFState n) (i : Fin n)
      (hp : s.phase i = CallerPhase.start) (hf : s.inFlight = true) :
      SFStep tok s { s with phase := Function.update s.phase i CallerPhase.waiting }
  | complete (s : SFState n) (i : Fin n)
      (hp : s.phase i = CallerPhase.refreshing) :
      SFStep tok s { s with phase := Function.update s.phase i (CallerPhase.done tok)
                            result := some tok
                            refreshCount := s.refreshCount + 1 }
  | wake (s : SFState n) (i : Fin n) (t : Nat)
      (hp : s.phase i = CallerPhase.waiting) (hr : s.result = some t) :
      SFStep tok s { s with phase := Function.update s.phase i (CallerPhase.done t) }

/-- Modelled from the spec: a step of the multi-account system is a
single-flight step on exactly one account key, leaving every other account
untouched; refreshes for different accounts proceed independently. -/
def GStep {Key : Type} (tok : Key → Nat) {n : Nat} (k : Key)
    (g g2 : Key → SFState n) : Prop :=
  SFStep (tok k) (g k) (g2 k) ∧ ∀ k2, k2 ≠ k → g2 k2 = g k2

/-- Reachability of the multi-account system under interleaved per-account
steps. -/
def GRun {Key : Type} (tok : Key → Nat) {n : Nat} (g g2 : Key → SFState n) : Prop :=
  Relation.ReflTransGen (fun a b => ∃ k, GStep tok k a b) g g2

/-- Invariant of the single-flight model: at most one refresher exists, the
result is written at most once with the fresh token, the refresh counter is
0 before publication and 1 after, and every finished caller holds the
published token. -/
structure SFInv (tok : Nat) {n : Nat} (s : SFState n) : Prop where
  noflight : s.inFlight = false → (∀ i, s.phase i = CallerPhase.start) ∧ s.result = none
  countNone : s.result = none → s.refreshCount = 0
  resultTok : ∀ t, s.result = some t → t = tok ∧ s.refreshCount = 1
  refOne : ∀ i j, s.phase i = CallerPhase.refreshing → s.phase j = CallerPhase.refreshing → i = j
  refNone : ∀ i, s.phase i = CallerPhase.refreshing → s.result = none
  doneRes : ∀ i t, s.phase i = CallerPhase.done t → s.result = some tok
  doneTok : ∀ i t, s.phase i = CallerPhase.done t → t = tok

/-- Intermediate state of the concrete single-flight witness run: caller 0 has
installed the refresh handle. -/
def sfW1 : SFState 1 :=
  { phase := fun _ => CallerPhase.refreshing
    inFlight := true
    result := none
    refreshCount := 0 }

/-- Final state of the concrete single-flight witness run: caller 0 completed
the refresh with token 7. -/
def sfW2 : SFState 1 :=
  { phase := fun _ => CallerPhase.done 7
    inFlight := true
    result := some 7
    refreshCount := 1 }

def cfgW : OAuthProviderConfigM :=
  { authorizeUrl := "https://claude.ai/oauth/authorize".data
    tokenUrl := "https://console.anthropic.com/v1/oauth/token".data
    clientId := "client-1".data
    scopes := []
    redirectUri := "https://console.anthropic.com/oauth/code/callback".data
    mode := ModeM.console }

def tokenJsonW : TokenJsonM :=
  { refresh_token := "R".data
    access_token := "T".data
    expires_in := 3600 }

/-- Concrete successful token-endpoint response used by witnesses. -/
def respOkW : ResponseExM :=
  { ok := true
    status := 200
    statusText := "OK".data
    errJson := none
    tokenJson := tokenJsonW }

/-- Concrete failing token-endpoint response with a parseable error body. -/
def respErrW : ResponseExM :=
  { ok := false
    status := 400
    statusText := "Bad Request".data
    errJson := some { error := some ("invalid_grant".data)
                      error_description := some ("Code expired".data) }
    tokenJson := tokenJsonW }

/-- Concrete failing token-endpoint response with an unparseable body and an
empty status text, as produced over HTTP/2 where fetch reports no status
text. -/
def respEmptyW : ResponseExM :=
  { ok := false
    status := 500
    statusText := []
    errJson := none
    tokenJson := tokenJsonW }

def reqW : RequestM :=
  { method := "POST".data
    headers := [("x-app".data, "cli".data)]
    pathname := "/v1/messages".data
    search := []
    hasBody := true }

def acctW : AccountM :=
  { name := "acct-1".data
    api_key := none
    refresh_token := some ("rt-1".data)
    rate_limited_until := none }

def metaW : RequestMetaM :=
  { id := "req-1".data
    timestamp := 5
    agentUsed := none }

def respW : RespM :=
  { status := 200
    headers := []
    body := "ok".data }

def prepHW : List (Str × Str) → Option Str → Option Str → List (Str × Str) :=
  fun hs _ _ => hs

def sendOkW : List (Str × Str) → Except Str RespM :=
  fun _ => Except.ok respW

def sendErrW : List (Str × Str) → Except Str RespM :=
  fun _ => Except.error ("network down".data)

def isRLfalseW : RespM → Bool := fun _ => false

def rlZeroW : RespM → Int := fun _ => 0

/-- A JavaScript-falsy optional string: absent, null, or empty. -/
def blankOpt (o : Option Str) : Prop := o = none ∨ o = some []

theorem jsSplitHash_ne_nil (cs : Str) : jsSplitHash cs ≠ [] := by
  induction cs with
  | nil => simp [jsSplitHash]
  | cons c cs ih =>
    simp only [jsSplitHash]
    split
    · simp
    · split
      · simp
      · simp

theorem jsSplitHash_no_hash (cs : Str) (h : ('#' : Char) ∉ cs) :
    jsSplitHash cs = [cs] := by
  induction cs with
  | nil => rfl
  | cons c cs ih =>
    simp only [List.mem_cons, not_or] at h
    simp only [jsSplitHash]
    rw [if_neg fun hc => h.1 hc.symm, ih h.2]

theorem jsSplitHash_hashfree_append (a rest : Str) (h : ('#' : Char) ∉ a) :
    jsSplitHash (a ++ '#' :: rest) = a :: jsSplitHash rest := by
  induction a with
  | nil => simp [jsSplitHash]
  | cons c a ih =>
    simp only [List.mem_cons, not_or] at h
    simp only [List.cons_append, jsSplitHash, List.append_eq]
    rw [if_neg fun hc => h.1 hc.symm, ih h.2]

theorem jsSplitHash_getD_zero (cs : Str) :
    (jsSplitHash cs).getD 0 [] = cs.takeWhile (fun c => c != '#') := by
  induction cs with
  | nil => rfl
  | cons c cs ih =>
    by_cases hc : c = '#'
    · subst hc
      simp [jsSplitHash]
    · have hne := jsSplitHash_ne_nil cs
      cases hcs : jsSplitHash cs with
      | nil => exact absurd hcs hne
      | cons s rest =>
        rw [hcs] at ih
        simp only [jsSplitHash, if_neg hc, hcs]
        simp only [List.getD_cons_zero] at ih ⊢
        have hb : (c != '#') = true := bne_iff_ne.mpr hc
        simp only [List.takeWhile, ih, hb]

/-- C3 (amended): exchangeCode splits the code on the hash character, using
the segment before the first hash as the authorization code sent in the
token request body, and the segment between the first and the second hash
(not everything after the first hash) as the fallback state, empty when the
code ends at the first hash; a code with no hash yields the code itself and
empty state; a supplied non-empty stateParam is preferred over the
extracted fallback state, and the extracted state is sent when stateParam
is absent. -/
theorem splitCode_c3 :
    (∀ a rest : Str, ('#' : Char) ∉ a →
       splitCodeState (a ++ '#' :: rest)
         = (a, rest.takeWhile (fun c => c != '#')))
  ∧ (∀ cs : Str, ('#' : Char) ∉ cs → splitCodeState cs = (cs, []))
  ∧ (∀ code verifier : Str, ∀ cfg : OAuthProviderConfigM, ∀ s : Str, s ≠ [] →
       ("state".data, s) ∈ (buildExchangeRequest code verifier cfg (some s)).body)
  ∧ (∀ code verifier : Str, ∀ cfg : OAuthProviderConfigM,
       ("code".data, (splitCodeState code).1)
          ∈ (buildExchangeRequest code verifier cfg none).body
       ∧ ("state".data, (splitCodeState code).2)
          ∈ (buildExchangeRequest code verifier cfg none).body) := by
  refine ⟨?_, ?_, ?_, ?_⟩
  · intro a rest h
    have hmem : ('#' : Char) ∈ a ++ '#' :: rest :=
      List.mem_append.mpr (Or.inr (List.mem_cons_self _ _))
    rw [splitCodeState, if_pos hmem, jsSplitHash_hashfree_append a rest h]
    rw [List.getD_cons_zero, List.getD_cons_succ, jsSplitHash_getD_zero]
  · intro cs h
    rw [splitCodeState, if_neg h]
  · intro code verifier cfg s hs
    have hne : s.isEmpty = false := by
      cases s with
      | nil => exact absurd rfl hs
      | cons a l => rfl
    simp [buildExchangeRequest, jsOrStr, hne]
  · intro code verifier cfg
    constructor
    · simp [buildExchangeRequest]
    · simp [buildExchangeRequest, jsOrStr]

/-- Witness for C3: the theorem applied to the concrete composite code
abc#st1#st2, whose code part is abc and whose fallback state is st1. -/
theorem splitCode_c3_witness :
    (('#' : Char) ∉ "abc".data)
  ∧ splitCodeState ("abc".data ++ '#' :: "st1#st2".data)
      = ("abc".data, ("st1#st2".data).takeWhile (fun c => c != '#')) :=
  ⟨by decide, splitCode_c3.1 ("abc".data) ("st1#st2".data) (by decide)⟩

/-- C3 counterexample: for the composite code abc#st1#st2 the source sends
st1 as the fallback state, not everything after the first hash (st1#st2),
refuting the claim as stated. -/
theorem splitCode_c3_counterexample :
    (splitCodeState ("abc#st1#st2".data)).2 = "st1".data
  ∧ ("st1".data : Str) ≠ "st1#st2".data
  ∧ ("state".data, "st1".data)
      ∈ (buildExchangeRequest ("abc#st1#st2".data) ("v".data) cfgW none).body := by
  refine ⟨?_, ?_, ?_⟩ <;> decide

/-- C10: a supplied empty-string stateParam behaves exactly as an absent one:
the token request built with stateParam equal to the empty string is the
request built with no stateParam at all, so the state field sent is the
fallback state extracted from the composite code (or empty if none). -/
theorem emptyStateParam_c10 (code verifier : Str) (cfg : OAuthProviderConfigM) :
    buildExchangeRequest code verifier cfg (some [])
      = buildExchangeRequest code verifier cfg none := rfl

/-- C8 (amended): every token-exchange request issued by exchangeCode is a
POST to the configured token URL whose JSON body has exactly the fields
grant_type (authorization_code), code, redirect_uri, client_id,
code_verifier and state, and whose headers are exactly Content-Type:
application/json, Accept: application/json, text/plain, */* and
additionally User-Agent: axios/1.8.4. -/
theorem exchangeWire_c8 (code verifier : Str) (cfg : OAuthProviderConfigM)
    (stateParam : Option Str) :
    (buildExchangeRequest code verifier cfg stateParam).method = "POST".data
  ∧ (buildExchangeRequest code verifier cfg stateParam).url = cfg.tokenUrl
  ∧ (buildExchangeRequest code verifier cfg stateParam).headers
      = [("Content-Type".data, "application/json".data),
         ("Accept".data, "application/json, text/plain, */*".data),
         ("User-Agent".data, "axios/1.8.4".data)]
  ∧ (buildExchangeRequest code verifier cfg stateParam).body
      = [("grant_type".data, "authorization_code".data),
         ("code".data, (splitCodeState code).1),
         ("redirect_uri".data, cfg.redirectUri),
         ("client_id".data, cfg.clientId),
         ("code_verifier".data, verifier),
         ("state".data, jsOrStr stateParam (splitCodeState code).2)] :=
  ⟨rfl, rfl, rfl, rfl⟩

/-- C8 counterexample: the token-exchange request carries a third header,
User-Agent: axios/1.8.4, which is neither the Content-Type header nor the
Accept header, refuting the claim that the headers are exactly Content-Type
and Accept. -/
theorem exchangeWire_c8_counterexample :
    ("User-Agent".data, "axios/1.8.4".data)
      ∈ (buildExchangeRequest ("c".data) ("v".data) cfgW none).headers
  ∧ ("User-Agent".data : Str) ≠ "Content-Type".data
  ∧ ("User-Agent".data : Str) ≠ "Accept".data := by
  refine ⟨?_, ?_, ?_⟩ <;> decide

theorem jsOrStr_some_ne (s b : Str) (h : s ≠ []) : jsOrStr (some s) b = s := by
  cases s with
  | nil => exact absurd rfl h
  | cons a l => rfl

theorem jsOrStr_blank (a : Option Str) (b : Str) (h : blankOpt a) :
    jsOrStr a b = b := by
  rcases h with h | h <;> subst h <;> rfl

/-- C6: for every successful token-endpoint response exchangeCode returns a
TokenResult whose accessToken and refreshToken equal the payload fields and
whose expiresAt is now + expires_in * 1000; in particular a payload with
expires_in = 3600 yields expiresAt equal to (hence within 1s of)
now + 3600000. -/
theorem exchangeSuccess_c6 (resp : ResponseExM) (now : Int) (h : resp.ok = true) :
    processExchangeResponse resp now
      = Except.ok { refreshToken := resp.tokenJson.refresh_token
                    accessToken := resp.tokenJson.access_token
                    expiresAt := now + resp.tokenJson.expires_in * 1000 }
  ∧ (resp.tokenJson.expires_in = 3600 →
       processExchangeResponse resp now
         = Except.ok { refreshToken := resp.tokenJson.refresh_token
                       accessToken := resp.tokenJson.access_token
                       expiresAt := now + 3600000 }) := by
  constructor
  · simp only [processExchangeResponse]
    rw [if_pos h]
  · intro h36
    simp only [processExchangeResponse]
    rw [if_pos h, h36]
    norm_num

/-- Witness for C6: the theorem applied to a concrete successful response
carrying access token T, refresh token R, expires_in 3600, read at now =
1000. -/
theorem exchangeSuccess_c6_witness :
    respOkW.ok = true
  ∧ processExchangeResponse respOkW 1000
      = Except.ok { refreshToken := respOkW.tokenJson.refresh_token
                    accessToken := respOkW.tokenJson.access_token
                    expiresAt := 1000 + respOkW.tokenJson.expires_in * 1000 } :=
  ⟨rfl, (exchangeSuccess_c6 respOkW 1000 rfl).1⟩

/-- C7 (amended): for every non-success token-endpoint response exchangeCode
raises an OAuthError and never returns a TokenResult; the error always
carries the provider error code in its code field, and its message is the
provider error description when present and non-empty, else the provider
error code when present and non-empty, else the raw HTTP status text when
non-empty, else a fixed default message; exchangeCode itself performs no
retry (the exchange processes its single response exactly once). -/
theorem exchangeError_c7 (resp : ResponseExM) (now : Int) (h : resp.ok = false) :
    (∀ s, (resp.errJson.bind fun d => d.error_description) = some s → s ≠ [] →
        processExchangeResponse resp now
          = Except.error { message := s, provider := "anthropic".data,
                           code := resp.errJson.bind fun d => d.error })
  ∧ (∀ s, blankOpt (resp.errJson.bind fun d => d.error_description) →
        (resp.errJson.bind fun d => d.error) = some s → s ≠ [] →
        processExchangeResponse resp now
          = Except.error { message := s, provider := "anthropic".data,
                           code := some s })
  ∧ (blankOpt (resp.errJson.bind fun d => d.error_description) →
     blankOpt (resp.errJson.bind fun d => d.error) →
     resp.statusText ≠ [] →
        processExchangeResponse resp now
          = Except.error { message := resp.statusText,
                           provider := "anthropic".data,
                           code := resp.errJson.bind fun d => d.error })
  ∧ (blankOpt (resp.errJson.bind fun d => d.error_description) →
     blankOpt (resp.errJson.bind fun d => d.error) →
     resp.statusText = [] →
        processExchangeResponse resp now
          = Except.error { message := "OAuth token exchange failed".data,
                           provider := "anthropic".data,
                           code := resp.errJson.bind fun d => d.error })
  ∧ (∀ tr, processExchangeResponse resp now ≠ Except.ok tr) := by
  have hko : ¬ (resp.ok = true) := by simp [h]
  refine ⟨?_, ?_, ?_, ?_, ?_⟩
  · intro s hs hne
    simp only [processExchangeResponse]
    rw [if_neg hko, hs, jsOrStr_some_ne s _ hne]
  · intro s hd hs hne
    simp only [processExchangeResponse]
    rw [if_neg hko, jsOrStr_blank _ _ hd, hs, jsOrStr_some_ne s _ hne]
  · intro hd he hst
    simp only [processExchangeResponse]
    rw [if_neg hko, jsOrStr_blank _ _ hd, jsOrStr_blank _ _ he,
        jsOrStr_some_ne _ _ hst]
  · intro hd he hst
    simp only [processExchangeResponse]
    rw [if_neg hko, jsOrStr_blank _ _ hd, jsOrStr_blank _ _ he, hst]
    rfl
  · intro tr
    simp only [processExchangeResponse]
    rw [if_neg hko]
    exact fun hh => Except.noConfusion hh

/-- Witness for C7: the theorem applied to a concrete 400 response whose
parsed body carries error invalid_grant and description Code expired; the
raised OAuthError carries the description as its message. -/
theorem exchangeError_c7_witness :
    respErrW.ok = false
  ∧ (respErrW.errJson.bind fun d => d.error_description)
      = some ("Code expired".data)
  ∧ processExchangeResponse respErrW 0
      = Except.error { message := "Code expired".data
                       provider := "anthropic".data
                       code := respErrW.errJson.bind fun d => d.error } :=
  ⟨rfl, rfl,
   (exchangeError_c7 respErrW 0 rfl).1 ("Code expired".data) rfl (by decide)⟩

/-- C7 counterexample: for a non-success response with an unparseable error
body and an empty HTTP status text (as fetch reports over HTTP/2), the
raised OAuthError carries the fixed default message, not the raw status
text, refuting the claim as stated. -/
theorem exchangeError_c7_counterexample :
    processExchangeResponse respEmptyW 0
      = Except.error { message := "OAuth token exchange failed".data
                       provider := "anthropic".data
                       code := none }
  ∧ respEmptyW.statusText = []
  ∧ ("OAuth token exchange failed".data : Str) ≠ respEmptyW.statusText :=
  ⟨rfl, rfl, by decide⟩

theorem find_skip_leading {α : Type} (p : α → Bool) (l1 l2 : List α)
    (h : ∀ x ∈ l1, p x = false) :
    (l1 ++ l2).find? p = l2.find? p := by
  induction l1 with
  | nil => rfl
  | cons a l ih =>
    have ha := h a (List.mem_cons_self a l)
    simp only [List.cons_append, List.find?]
    rw [ha]
    exact ih fun x hx => h x (List.mem_cons_of_mem a hx)

/-- C5: a stored session is returned by getSession exactly when the read time
is strictly before its expiresAt, which equals createdAt plus the ttl
(ttlMinutes minutes); an expired but not yet swept session reads as absent;
in particular a read 1ms before expiry returns the session and a read 1ms
after expiry returns absent, for any ttl. -/
theorem getSession_expiry_c5 (db : List SessionRow)
    (sid accountName verifier : Str) (mode : ModeM) (tier : Int)
    (ttlMinutes : Int) (st : Option Str) (t0 : Int)
    (hfresh : ∀ r ∈ db, r.id ≠ sid) :
    (∀ t : Int,
       (getSession (createSession db sid accountName verifier mode tier ttlMinutes st t0) sid t).isSome
         ↔ t < t0 + ttlMinutes * 60 * 1000)
  ∧ getSession (createSession db sid accountName verifier mode tier ttlMinutes st t0) sid
      (t0 + ttlMinutes * 60 * 1000 - 1)
      = some { accountName := accountName, verifier := verifier,
               state := jsOrNull st, mode := mode, tier := tier }
  ∧ getSession (createSession db sid accountName verifier mode tier ttlMinutes st t0) sid
      (t0 + ttlMinutes * 60 * 1000 + 1)
      = none := by
  have key : ∀ t : Int,
      getSession (createSession db sid accountName verifier mode tier ttlMinutes st t0) sid t
        = if t < t0 + ttlMinutes * 60 * 1000 then
            some { accountName := accountName, verifier := verifier,
                   state := jsOrNull st, mode := mode, tier := tier }
          else none := by
    intro t
    have hnone : ∀ r ∈ db, sessionLive sid t r = false := by
      intro r hr
      simp [sessionLive, hfresh r hr]
    simp only [getSession, createSession]
    rw [find_skip_leading (sessionLive sid t) db _ hnone]
    simp only [List.find?, sessionLive]
    by_cases ht : t < t0 + ttlMinutes * 60 * 1000
    · simp [ht]
    · simp [ht]
  refine ⟨?_, ?_, ?_⟩
  · intro t
    rw [key t]
    by_cases ht : t < t0 + ttlMinutes * 60 * 1000
    · simp [ht]
    · simp [ht]
  · rw [key]
    exact if_pos (by omega)
  · rw [key]
    exact if_neg (by omega)

/-- Witness for C5: the theorem applied to an empty store and a session
created at time 0 with the default ttl of 10 minutes; the read at 599999
returns the session and the read at 600001 returns absent. -/
theorem getSession_expiry_c5_witness :
    (∀ r ∈ ([] : List SessionRow), r.id ≠ "s1".data)
  ∧ getSession (createSession [] ("s1".data) ("acct".data) ("ver".data)
        ModeM.console 1 10 none 0) ("s1".data) (0 + 10 * 60 * 1000 - 1)
      = some { accountName := "acct".data, verifier := "ver".data,
               state := jsOrNull none, mode := ModeM.console, tier := 1 }
  ∧ getSession (createSession [] ("s1".data) ("acct".data) ("ver".data)
        ModeM.console 1 10 none 0) ("s1".data) (0 + 10 * 60 * 1000 + 1)
      = none :=
  ⟨fun r hr => absurd hr (List.not_mem_nil r),
   (getSession_expiry_c5 [] ("s1".data) ("acct".data) ("ver".data)
      ModeM.console 1 10 none 0
      (fun r hr => absurd hr (List.not_mem_nil r))).2.1,
   (getSession_expiry_c5 [] ("s1".data) ("acct".data) ("ver".data)
      ModeM.console 1 10 none 0
      (fun r hr => absurd hr (List.not_mem_nil r))).2.2⟩

/-- C2: proxyUnauthenticated performs exactly one upstream attempt, whose
headers are prepared with neither access token nor API key, and forwards
whatever response results via the forwarding record; if and only if that
attempt throws, it raises a ProviderError carrying status 502 and the
original error detail. -/
theorem proxyUnauthenticated_c2 (req : RequestM) (meta : RequestMetaM)
    (requestBody : Option Str) (providerName : Str)
    (prepareHeaders : List (Str × Str) → Option Str → Option Str → List (Str × Str))
    (send : List (Str × Str) → Except Str RespM) :
    (proxyUnauthenticated req meta requestBody providerName prepareHeaders send).2
      = [prepareHeaders req.headers none none]
  ∧ (∀ r, send (prepareHeaders req.headers none none) = Except.ok r →
       (proxyUnauthenticated req meta requestBody providerName prepareHeaders send).1
         = Except.ok { requestId := meta.id, method := req.method,
                       path := req.pathname, account := none,
                       requestHeaders := req.headers, requestBody := requestBody,
                       response := r, timestamp := meta.timestamp,
                       retryAttempt := 0, failoverAttempts := 0,
                       agentUsed := meta.agentUsed })
  ∧ (∀ e, send (prepareHeaders req.headers none none) = Except.error e →
       (proxyUnauthenticated req meta requestBody providerName prepareHeaders send).1
         = Except.error { message := unauthenticatedFailedMsg,
                          provider := providerName, status := 502,
                          originalError := e }) := by
  refine ⟨?_, ?_, ?_⟩
  · cases hs : send (prepareHeaders req.headers none none) with
    | ok r => simp [proxyUnauthenticated, hs]
    | error e => simp [proxyUnauthenticated, hs]
  · intro r hr
    simp [proxyUnauthenticated, hr]
  · intro e he
    simp [proxyUnauthenticated, he]

/-- Witness for C2: the theorem applied to a concrete request, once with a
throwing send discharged at the ProviderError branch. -/
theorem proxyUnauthenticated_c2_witness :
    sendErrW (prepHW reqW.headers none none) = Except.error ("network down".data)
  ∧ (proxyUnauthenticated reqW metaW none ("anthropic".data) prepHW sendErrW).2
      = [prepHW reqW.headers none none]
  ∧ (proxyUnauthenticated reqW metaW none ("anthropic".data) prepHW sendErrW).1
      = Except.error { message := unauthenticatedFailedMsg,
                       provider := "anthropic".data, status := 502,
                       originalError := "network down".data } :=
  ⟨rfl,
   (proxyUnauthenticated_c2 reqW metaW none ("anthropic".data) prepHW sendErrW).1,
   (proxyUnauthenticated_c2 reqW metaW none ("anthropic".data) prepHW
      sendErrW).2.2 ("network down".data) rfl⟩

/-- C1: proxyWithAccount never raises to its caller (its embedding is a total
function covering every outcome): when getValidAccessToken throws, or the
upstream send throws, the error is swallowed (handleProxyError only logs)
and the attempt yields null with the account unchanged; when the response
is classified rate-limited the account is first marked rateLimitedUntil and
the attempt yields null so the engine advances to the next account; every
other upstream response, including 4xx/5xx statuses not recognized as
rate-limiting, is forwarded to the caller via the forwarding record. -/
theorem proxyWithAccount_c1 (req : RequestM) (account : AccountM)
    (meta : RequestMetaM) (requestBody : Option Str) (failoverAttempts : Nat)
    (tokenResult : Except Str (Option Str))
    (prepareHeaders : List (Str × Str) → Option Str → Option Str → List (Str × Str))
    (send : List (Str × Str) → Except Str RespM)
    (isRL : RespM → Bool) (rlUntil : RespM → Int) :
    (∀ e, tokenResult = Except.error e →
       proxyWithAccount req account meta requestBody failoverAttempts tokenResult
           prepareHeaders send isRL rlUntil = (none, account))
  ∧ (∀ tok e, tokenResult = Except.ok tok →
       send (prepareHeaders req.headers tok (jsApiKey account)) = Except.error e →
       proxyWithAccount req account meta requestBody failoverAttempts tokenResult
           prepareHeaders send isRL rlUntil = (none, account))
  ∧ (∀ tok r, tokenResult = Except.ok tok →
       send (prepareHeaders req.headers tok (jsApiKey account)) = Except.ok r →
       isRL r = true →
       proxyWithAccount req account meta requestBody failoverAttempts tokenResult
           prepareHeaders send isRL rlUntil
         = (none, { account with rate_limited_until := some (rlUntil r) }))
  ∧ (∀ tok r, tokenResult = Except.ok tok →
       send (prepareHeaders req.headers tok (jsApiKey account)) = Except.ok r →
       isRL r = false →
       proxyWithAccount req account meta requestBody failoverAttempts tokenResult
           prepareHeaders send isRL rlUntil
         = (some { requestId := meta.id, method := req.method,
                   path := req.pathname, account := some account.name,
                   requestHeaders := req.headers, requestBody := requestBody,
                   response := r, timestamp := meta.timestamp,
                   retryAttempt := 0, failoverAttempts := failoverAttempts,
                   agentUsed := meta.agentUsed }, account)) := by
  refine ⟨?_, ?_, ?_, ?_⟩
  · intro e he
    simp [proxyWithAccount, he]
  · intro tok e htok hsend
    simp [proxyWithAccount, htok, hsend]
  · intro tok r htok hsend hrl
    simp [proxyWithAccount, htok, hsend, processProxyResponse, hrl]
  · intro tok r htok hsend hrl
    simp [proxyWithAccount, htok, hsend, processProxyResponse, hrl]

/-- Witness for C1: the theorem applied at a concrete request, account and a
200 upstream response not classified rate-limited, discharged at the
forwarding branch. -/
theorem proxyWithAccount_c1_witness :
    sendOkW (prepHW reqW.headers (some ("tok".data)) (jsApiKey acctW))
      = Except.ok respW
  ∧ isRLfalseW respW = false
  ∧ proxyWithAccount reqW acctW metaW none 0 (Except.ok (some ("tok".data)))
        prepHW sendOkW isRLfalseW rlZeroW
      = (some { requestId := metaW.id, method := reqW.method,
                path := reqW.pathname, account := some acctW.name,
                requestHeaders := reqW.headers, requestBody := none,
                response := respW, timestamp := metaW.timestamp,
                retryAttempt := 0, failoverAttempts := 0,
                agentUsed := metaW.agentUsed }, acctW) :=
  ⟨rfl, rfl,
   (proxyWithAccount_c1 reqW acctW metaW none 0 (Except.ok (some ("tok".data)))
      prepHW sendOkW isRLfalseW rlZeroW).2.2.2 (some ("tok".data)) respW
      rfl rfl rfl⟩

/-- C9: for a request recognized as coming from the Claude Code CLI (x-app
header cli or claude-cli user agent) whose selected account is OAuth-only
(Max: refresh token present, no API key) and whose path starts with /v1/,
proxyWithAccount still sends the request upstream and lets the upstream
response define the outcome: a non-rate-limited response, whatever its
status, is forwarded unchanged via the forwarding record, and a
rate-limited one advances to the next account; the mismatch is only logged
and never short-circuits into a locally generated error. -/
theorem proxyWithAccount_cliMax_c9 (req : RequestM) (account : AccountM)
    (meta : RequestMetaM) (requestBody : Option Str) (failoverAttempts : Nat)
    (tok : Option Str)
    (prepareHeaders : List (Str × Str) → Option Str → Option Str → List (Str × Str))
    (send : List (Str × Str) → Except Str RespM)
    (isRL : RespM → Bool) (rlUntil : RespM → Int)
    (hcc : isClaudeCodeRequest req = true)
    (hmax : isMaxAccount account = true)
    (hpath : ("/v1/".data).isPrefixOf req.pathname = true)
    (r : RespM)
    (hsend : send (prepareHeaders req.headers tok (jsApiKey account))
               = Except.ok r) :
    (isRL r = false →
       proxyWithAccount req account meta requestBody failoverAttempts
           (Except.ok tok) prepareHeaders send isRL rlUntil
         = (some { requestId := meta.id, method := req.method,
                   path := req.pathname, account := some account.name,
                   requestHeaders := req.headers, requestBody := requestBody,
                   response := r, timestamp := meta.timestamp,
                   retryAttempt := 0, failoverAttempts := failoverAttempts,
                   agentUsed := meta.agentUsed }, account))
  ∧ (isRL r = true →
       proxyWithAccount req account meta requestBody failoverAttempts
           (Except.ok tok) prepareHeaders send isRL rlUntil
         = (none, { account with rate_limited_until := some (rlUntil r) })) := by
  constructor
  · intro hrl
    simp [proxyWithAccount, hsend, processProxyResponse, hrl]
  · intro hrl
    simp [proxyWithAccount, hsend, processProxyResponse, hrl]

/-- Witness for C9: the theorem applied to a concrete request carrying the
x-app cli header, an account with a refresh token and no API key, and the
path /v1/messages; the 200 upstream response is forwarded unchanged. -/
theorem proxyWithAccount_cliMax_c9_witness :
    isClaudeCodeRequest reqW = true
  ∧ isMaxAccount acctW = true
  ∧ ("/v1/".data).isPrefixOf reqW.pathname = true
  ∧ proxyWithAccount reqW acctW metaW none 0 (Except.ok (some ("tok".data)))
        prepHW sendOkW isRLfalseW rlZeroW
      = (some { requestId := metaW.id, method := reqW.method,
                path := reqW.pathname, account := some acctW.name,
                requestHeaders := reqW.headers, requestBody := none,
                response := respW, timestamp := metaW.timestamp,
                retryAttempt := 0, failoverAttempts := 0,
                agentUsed := metaW.agentUsed }, acctW) :=
  ⟨by decide, by decide, by decide,
   (proxyWithAccount_cliMax_c9 reqW acctW metaW none 0 (some ("tok".data))
      prepHW sendOkW isRLfalseW rlZeroW (by decide) (by decide) (by decide)
      respW rfl).1 rfl⟩

theorem update_eq_cases {n : Nat} (f : Fin n → CallerPhase) (i j : Fin n)
    (v w : CallerPhase) (h : Function.update f i v j = w) :
    (j = i ∧ v = w) ∨ (j ≠ i ∧ f j = w) := by
  by_cases hj : j = i
  · subst hj
    rw [Function.update_same] at h
    exact Or.inl ⟨rfl, h⟩
  · rw [Function.update_noteq hj] at h
    exact Or.inr ⟨hj, h⟩

theorem sfInv_init (tok n : Nat) : SFInv tok (sfInit n) := by
  refine ⟨?_, ?_, ?_, ?_, ?_, ?_, ?_⟩ <;> intros <;> simp_all [sfInit]

theorem sfInv_step {n : Nat} {tok : Nat} {s s2 : SFState n}
    (hstep : SFStep tok s s2) (hinv : SFInv tok s) : SFInv tok s2 := by
  cases hstep with
  | install i hp hf =>
    obtain ⟨hall, hres⟩ := hinv.noflight hf
    have hcnt : s.refreshCount = 0 := hinv.countNone hres
    refine ⟨?_, ?_, ?_, ?_, ?_, ?_, ?_⟩
    · intro hfl
      exact Bool.noConfusion (hfl : true = false)
    · intro _
      exact hcnt
    · intro t ht
      have ht2 : s.result = some t := ht
      rw [hres] at ht2
      exact Option.noConfusion ht2
    · intro a b ha hb
      have ha2 : Function.update s.phase i CallerPhase.refreshing a
          = CallerPhase.refreshing := ha
      have hb2 : Function.update s.phase i CallerPhase.refreshing b
          = CallerPhase.refreshing := hb
      rcases update_eq_cases _ _ _ _ _ ha2 with ⟨hai, _⟩ | ⟨_, ha3⟩
      · rcases update_eq_cases _ _ _ _ _ hb2 with ⟨hbi, _⟩ | ⟨_, hb3⟩
        · rw [hai, hbi]
        · rw [hall b] at hb3
          exact CallerPhase.noConfusion hb3
      · rw [hall a] at ha3
        exact CallerPhase.noConfusion ha3
    · intro a _
      exact hres
    · intro a t ha
      have ha2 : Function.update s.phase i CallerPhase.refreshing a
          = CallerPhase.done t := ha
      rcases update_eq_cases _ _ _ _ _ ha2 with ⟨_, hv⟩ | ⟨_, ha3⟩
      · exact CallerPhase.noConfusion hv
      · rw [hall a] at ha3
        exact CallerPhase.noConfusion ha3
    · intro a t ha
      have ha2 : Function.update s.phase i CallerPhase.refreshing a
          = CallerPhase.done t := ha
      rcases update_eq_cases _ _ _ _ _ ha2 with ⟨_, hv⟩ | ⟨_, ha3⟩
      · exact CallerPhase.noConfusion hv
      · rw [hall a] at ha3
        exact CallerPhase.noConfusion ha3
  | attach i hp hf =>
    refine ⟨?_, ?_, ?_, ?_, ?_, ?_, ?_⟩
    · intro hfl
      have hfl2 : s.inFlight = false := hfl
      rw [hf] at hfl2
      exact Bool.noConfusion hfl2
    · exact fun h => hinv.countNone h
    · exact fun t ht => hinv.resultTok t ht
    · intro a b ha hb
      have ha2 : Function.update s.phase i CallerPhase.waiting a
          = CallerPhase.refreshing := ha
      have hb2 : Function.update s.phase i CallerPhase.waiting b
          = CallerPhase.refreshing := hb
      rcases update_eq_cases _ _ _ _ _ ha2 with ⟨_, hv⟩ | ⟨_, ha3⟩
      · exact CallerPhase.noConfusion hv
      · rcases update_eq_cases _ _ _ _ _ hb2 with ⟨_, hv⟩ | ⟨_, hb3⟩
        · exact CallerPhase.noConfusion hv
        · exact hinv.refOne a b ha3 hb3
    · intro a ha
      have ha2 : Function.update s.phase i CallerPhase.waiting a
          = CallerPhase.refreshing := ha
      rcases update_eq_cases _ _ _ _ _ ha2 with ⟨_, hv⟩ | ⟨_, ha3⟩
      · exact CallerPhase.noConfusion hv
      · exact hinv.refNone a ha3
    · intro a t ha
      have ha2 : Function.update s.phase i CallerPhase.waiting a
          = CallerPhase.done t := ha
      rcases update_eq_cases _ _ _ _ _ ha2 with ⟨_, hv⟩ | ⟨_, ha3⟩
      · exact CallerPhase.noConfusion hv
      · exact hinv.doneRes a t ha3
    · intro a t ha
      have ha2 : Function.update s.phase i CallerPhase.waiting a
          = CallerPhase.done t := ha
      rcases update_eq_cases _ _ _ _ _ ha2 with ⟨_, hv⟩ | ⟨_, ha3⟩
      · exact CallerPhase.noConfusion hv
      · exact hinv.doneTok a t ha3
  | complete i hp =>
    have hres : s.result = none := hinv.refNone i hp
    have hcnt : s.refreshCount = 0 := hinv.countNone hres
    refine ⟨?_, ?_, ?_, ?_, ?_, ?_, ?_⟩
    · intro hfl
      have hfl2 : s.inFlight = false := hfl
      obtain ⟨hall, _⟩ := hinv.noflight hfl2
      rw [hall i] at hp
      exact CallerPhase.noConfusion hp
    · intro ht
      exact Option.noConfusion (ht : some tok = none)
    · intro t ht
      have ht2 : some tok = some t := ht
      injection ht2 with he
      constructor
      · exact he.symm
      · have hgoal : s.refreshCount + 1 = 1 := by rw [hcnt]
        exact hgoal
    · intro a b ha hb
      have ha2 : Function.update s.phase i (CallerPhase.done tok) a
          = CallerPhase.refreshing := ha
      rcases update_eq_cases _ _ _ _ _ ha2 with ⟨_, hv⟩ | ⟨hai, ha3⟩
      · exact CallerPhase.noConfusion hv
      · exact absurd (hinv.refOne a i ha3 hp) hai
    · intro a ha
      have ha2 : Function.update s.phase i (CallerPhase.done tok) a
          = CallerPhase.refreshing := ha
      rcases update_eq_cases _ _ _ _ _ ha2 with ⟨_, hv⟩ | ⟨hai, ha3⟩
      · exact CallerPhase.noConfusion hv
      · exact absurd (hinv.refOne a i ha3 hp) hai
    · intro a t _
      rfl
    · intro a t ha
      have ha2 : Function.update s.phase i (CallerPhase.done tok) a
          = CallerPhase.done t := ha
      rcases update_eq_cases _ _ _ _ _ ha2 with ⟨_, hv⟩ | ⟨_, ha3⟩
      · injection hv with he
        exact he.symm
      · exact hinv.doneTok a t ha3
  | wake i t hp hr =>
    obtain ⟨htok, hcnt1⟩ := hinv.resultTok t hr
    refine ⟨?_, ?_, ?_, ?_, ?_, ?_, ?_⟩
    · intro hfl
      have hfl2 : s.inFlight = false := hfl
      obtain ⟨_, hres⟩ := hinv.noflight hfl2
      rw [hres] at hr
      exact Option.noConfusion hr
    · intro hn
      have hn2 : s.result = none := hn
      rw [hn2] at hr
      exact Option.noConfusion hr
    · exact fun u hu => hinv.resultTok u hu
    · intro a b ha hb
      have ha2 : Function.update s.phase i (CallerPhase.done t) a
          = CallerPhase.refreshing := ha
      rcases update_eq_cases _ _ _ _ _ ha2 with ⟨_, hv⟩ | ⟨_, ha3⟩
      · exact CallerPhase.noConfusion hv
      · have hres := hinv.refNone a ha3
        rw [hres] at hr
        exact Option.noConfusion hr
    · intro a ha
      have ha2 : Function.update s.phase i (CallerPhase.done t) a
          = CallerPhase.refreshing := ha
      rcases update_eq_cases _ _ _ _ _ ha2 with ⟨_, hv⟩ | ⟨_, ha3⟩
      · exact CallerPhase.noConfusion hv
      · have hres := hinv.refNone a ha3
        rw [hres] at hr
        exact Option.noConfusion hr
    · intro a u ha
      have ha2 : Function.update s.phase i (CallerPhase.done t) a
          = CallerPhase.done u := ha
      rcases update_eq_cases _ _ _ _ _ ha2 with ⟨_, _⟩ | ⟨_, ha3⟩
      · have hgoal : s.result = some tok := by rw [hr, htok]
        exact hgoal
      · exact hinv.doneRes a u ha3
    · intro a u ha
      have ha2 : Function.update s.phase i (CallerPhase.done t) a
          = CallerPhase.done u := ha
      rcases update_eq_cases _ _ _ _ _ ha2 with ⟨_, hv⟩ | ⟨_, ha3⟩
      · injection hv with he
        exact he ▸ htok
      · exact hinv.doneTok a u ha3

theorem sfInv_reach {n : Nat} (tok : Nat) (s : SFState n)
    (h : Relation.ReflTransGen (SFStep tok) (sfInit n) s) : SFInv tok s := by
  induction h with
  | refl => exact sfInv_init tok n
  | tail hsteps hstep ih => exact sfInv_step hstep ih

/-- C4 (modelled from the spec, single-flight refresh): in the single-flight
model of getValidAccessToken, for any number n of concurrent callers of the
same account whose cached token is expired, every interleaved execution in
which all callers finish has issued exactly one upstream refresh request,
and all n callers received the same resulting token; and any interleaved
multi-account execution projects, for each account, to a valid
single-account execution, so refreshes for different accounts proceed
independently and concurrently. -/
theorem singleFlight_c4 :
    (∀ (n tok : Nat) (s : SFState n), 0 < n →
       Relation.ReflTransGen (SFStep tok) (sfInit n) s →
       (∀ i, ∃ t, s.phase i = CallerPhase.done t) →
       s.refreshCount = 1 ∧ ∀ i, s.phase i = CallerPhase.done tok)
  ∧ (∀ (Key : Type) (tok : Key → Nat) (n : Nat) (g g2 : Key → SFState n),
       GRun tok g g2 →
       ∀ k, Relation.ReflTransGen (SFStep (tok k)) (g k) (g2 k)) := by
  constructor
  · intro n tok s hn hreach hdone
    have hinv := sfInv_reach tok s hreach
    have hall : ∀ i, s.phase i = CallerPhase.done tok := by
      intro i
      obtain ⟨t, ht⟩ := hdone i
      have htk := hinv.doneTok i t ht
      rw [htk] at ht
      exact ht
    refine ⟨?_, hall⟩
    have hres := hinv.doneRes ⟨0, hn⟩ tok (hall ⟨0, hn⟩)
    exact (hinv.resultTok tok hres).2
  · intro Key tok n g g2 hrun k
    induction hrun with
    | refl => exact Relation.ReflTransGen.refl
    | tail hsteps hstep ih =>
      obtain ⟨k0, hs0, hframe⟩ := hstep
      by_cases hk : k = k0
      · subst hk
        exact Relation.ReflTransGen.tail ih hs0
      · rw [hframe k hk]
        exact ih

theorem sfW1_eq :
    ({ sfInit 1 with
        phase := Function.update (sfInit 1).phase 0 CallerPhase.refreshing
        inFlight := true } : SFState 1) = sfW1 := by
  have hp : Function.update (fun _ => CallerPhase.start : Fin 1 → CallerPhase)
      (0 : Fin 1) CallerPhase.refreshing
      = fun _ => CallerPhase.refreshing := by
    funext j
    have hj : j = 0 := Subsingleton.elim j 0
    rw [hj, Function.update_same]
  simp [sfW1, sfInit, hp]

theorem sfW2_eq :
    ({ sfW1 with
        phase := Function.update sfW1.phase 0 (CallerPhase.done 7)
        result := some 7
        refreshCount := sfW1.refreshCount + 1 } : SFState 1) = sfW2 := by
  have hp : Function.update (fun _ => CallerPhase.refreshing : Fin 1 → CallerPhase)
      (0 : Fin 1) (CallerPhase.done 7)
      = fun _ => CallerPhase.done 7 := by
    funext j
    have hj : j = 0 := Subsingleton.elim j 0
    rw [hj, Function.update_same]
  simp [sfW1, sfW2, hp]

theorem sfStepW1 : SFStep 7 (sfInit 1) sfW1 := by
  have h := @SFStep.install 7 1 (sfInit 1) 0 rfl rfl
  rwa [sfW1_eq] at h

theorem sfStepW2 : SFStep 7 sfW1 sfW2 := by
  have h := @SFStep.complete 7 1 sfW1 0 rfl
  rwa [sfW2_eq] at h

theorem sfRunW : Relation.ReflTransGen (SFStep 7) (sfInit 1) sfW2 :=
  Relation.ReflTransGen.tail
    (Relation.ReflTransGen.tail Relation.ReflTransGen.refl sfStepW1) sfStepW2

/-- Witness for C4: the theorem applied to the concrete run in which one
caller installs the refresh handle and completes it with token 7: exactly
one refresh was counted and every caller holds token 7. -/
theorem singleFlight_c4_witness :
    (0 < 1 ∧ ∀ i : Fin 1, ∃ t, sfW2.phase i = CallerPhase.done t)
  ∧ (sfW2.refreshCount = 1 ∧ ∀ i : Fin 1, sfW2.phase i = CallerPhase.done 7) :=
  ⟨⟨Nat.one_pos, fun _ => ⟨7, rfl⟩⟩,
   singleFlight_c4.1 1 7 sfW2 Nat.one_pos sfRunW (fun _ => ⟨7, rfl⟩)⟩
